import Mathlib

/-!
Verification of the circular (ring) buffer implemented in
`src/circular_buffer.c` (and its mini variant `src/10_circular_buffer_mini.c`).

The C state struct `CircularBuffer_t` is embedded shallowly:
* `SensorData_t` (= `int32_t`) values are modelled as `Int`;
* the `uint32_t` fields are modelled as `Nat`, with `% 2^32` written
  explicitly at the increment sites where the C performs 32-bit addition;
* the raw pointer `pBuffer` is modelled as `Option (List Int)`
  (`none` = NULL, i.e. no storage owned);
* the out-pointer `SensorData_t* pData` of `cb_pop`/`cb_peek` is modelled
  as an extra `Option Int` component of the result: `some v` means the C
  function wrote `v` through the pointer, `none` means it left the
  caller's location untouched;
* the compile-time macro `BUFFER_FULL_POLICY` (the source text contains
  both the `POLICY_OVERWRITE_OLDEST` and the `POLICY_REJECT_NEW` branch,
  selected by the preprocessor) is modelled as an explicit `FullPolicy`
  argument of `cb_push`; each branch is transcribed from the source.
-/

/-- Modulus of the C `uint32_t` arithmetic. -/
def UINT32_LIMIT : Nat := 2 ^ 32

/-- Error code `CB_SUCCESS` from `src/circular_buffer.c`. -/
def CB_SUCCESS : Int := 0

/-- Error code `CB_ERROR_EMPTY` from `src/circular_buffer.c`. -/
def CB_ERROR_EMPTY : Int := -1

/-- Error code `CB_ERROR_FULL` from `src/circular_buffer.c`. -/
def CB_ERROR_FULL : Int := -2

/-- Error code `CB_ERROR_INVALID_SIZE` from `src/circular_buffer.c`. -/
def CB_ERROR_INVALID_SIZE : Int := -3

/-- Error code `CB_ERROR_NULL_POINTER` from `src/circular_buffer.c`; the
implementation uses this single code both for NULL arguments and for
operations on a buffer that is not initialized. -/
def CB_ERROR_NULL_POINTER : Int := -4

/-- The struct `CircularBuffer_t` of `src/circular_buffer.c`. -/
structure CircularBuffer where
  pBuffer : Option (List Int)
  writeIndex : Nat
  readIndex : Nat
  count : Nat
  capacity : Nat
  indexMask : Nat
  isInitialized : Bool
deriving Repr, DecidableEq

/-- A zeroed, never-initialized `CircularBuffer_t` (NULL storage pointer). -/
def blankCB : CircularBuffer :=
  { pBuffer := none, writeIndex := 0, readIndex := 0, count := 0,
    capacity := 0, indexMask := 0, isInitialized := false }

/-- The list held by `pBuffer` (empty if the pointer is NULL). -/
def storage (cb : CircularBuffer) : List Int :=
  cb.pBuffer.getD []

/-- Reading `cb->pBuffer[i]`; out-of-bounds or NULL reads (undefined
behavior in C, never reached by the verified operations on well-formed
states) default to `0`. -/
def readAt (cb : CircularBuffer) (i : Nat) : Int :=
  (storage cb).getD i 0

/-- Writing `cb->pBuffer[i] = v` (a no-op on a NULL pointer, which the
verified operations never do on well-formed states). -/
def storeAt (cb : CircularBuffer) (i : Nat) (v : Int) : CircularBuffer :=
  { cb with pBuffer := cb.pBuffer.map (fun l => l.set i v) }

/-- Helper `isPowerOfTwo` from `src/circular_buffer.c`:
`(n != 0) && ((n & (n - 1)) == 0)`. -/
def isPowerOfTwo (n : Nat) : Bool :=
  (n != 0) && ((n &&& (n - 1)) == 0)

/-- Helper `wrapIndex` from `src/circular_buffer.c`: `index & cb->indexMask`. -/
def wrapIndex (cb : CircularBuffer) (index : Nat) : Nat :=
  index &&& cb.indexMask

/-- The buffer-full policy: the two branches of the preprocessor macro
`BUFFER_FULL_POLICY` in the source. -/
inductive FullPolicy where
  | OverwriteOldest
  | RejectNew
deriving Repr, DecidableEq

/-- Function `cb_init` of `src/circular_buffer.c`.  Returns the C result
code together with the state of `*cb` after the call.  The `malloc` is
modelled as succeeding (the allocation-failure path is environment
nondeterminism that no claim touches); the subsequent `memset` zeroes the
storage. -/
def cb_init (cb : CircularBuffer) (size : Nat) : Int × CircularBuffer :=
  if size == 0 || !isPowerOfTwo size then
    (CB_ERROR_INVALID_SIZE, cb)
  else
    (CB_SUCCESS,
      { cb with
        capacity := size
        indexMask := size - 1
        writeIndex := 0
        readIndex := 0
        count := 0
        pBuffer := some (List.replicate size 0)
        isInitialized := true })

/-- Function `cb_deinit` of `src/circular_buffer.c`.  Result components:
the C result code, the state of `*cb` after the call, and whether
`free(cb->pBuffer)` was actually invoked (the C guards the `free` by
`pBuffer != NULL`).  Note the C resets every field except `indexMask`. -/
def cb_deinit (cb : CircularBuffer) : Int × CircularBuffer × Bool :=
  (CB_SUCCESS,
    { cb with
      pBuffer := none
      isInitialized := false
      capacity := 0
      writeIndex := 0
      readIndex := 0
      count := 0 },
    cb.pBuffer.isSome)

/-- Function `cb_isEmpty` of `src/circular_buffer.c`: returns `true` on a
NULL/uninitialized buffer, otherwise `count == 0`. -/
def cb_isEmpty (cb : CircularBuffer) : Bool :=
  if !cb.isInitialized then true
  else cb.count == 0

/-- Function `cb_isFull` of `src/circular_buffer.c`: returns `false` on a
NULL/uninitialized buffer, otherwise `count == capacity`. -/
def cb_isFull (cb : CircularBuffer) : Bool :=
  if !cb.isInitialized then false
  else cb.count == cb.capacity

/-- Function `cb_push` of `src/circular_buffer.c` with the preprocessor
policy made explicit.  The `+ 1` increments are 32-bit additions. -/
def cb_push (policy : FullPolicy) (cb : CircularBuffer) (data : Int) :
    Int × CircularBuffer :=
  if !cb.isInitialized then
    (CB_ERROR_NULL_POINTER, cb)
  else if cb_isFull cb && (policy == FullPolicy.RejectNew) then
    (CB_ERROR_FULL, cb)
  else
    let cb1 :=
      if cb_isFull cb then
        { cb with readIndex := wrapIndex cb ((cb.readIndex + 1) % UINT32_LIMIT) }
      else
        { cb with count := (cb.count + 1) % UINT32_LIMIT }
    let cb2 := storeAt cb1 cb1.writeIndex data
    (CB_SUCCESS,
      { cb2 with writeIndex := wrapIndex cb2 ((cb2.writeIndex + 1) % UINT32_LIMIT) })

/-- Function `cb_pop` of `src/circular_buffer.c`.  Result components: the
C result code, the state of `*cb` after the call, and the value written
through `pData` (`none` = the caller's location was not written).  The
`count--` is guarded by the emptiness test, so the `Nat` subtraction
agrees with the 32-bit one. -/
def cb_pop (cb : CircularBuffer) : Int × CircularBuffer × Option Int :=
  if !cb.isInitialized then
    (CB_ERROR_NULL_POINTER, cb, none)
  else if cb_isEmpty cb then
    (CB_ERROR_EMPTY, cb, none)
  else
    (CB_SUCCESS,
      { cb with
        readIndex := wrapIndex cb ((cb.readIndex + 1) % UINT32_LIMIT)
        count := cb.count - 1 },
      some (readAt cb cb.readIndex))

/-- Function `cb_peek` of `src/circular_buffer.c`: like `cb_pop` but
mutates no field of `*cb`. -/
def cb_peek (cb : CircularBuffer) : Int × CircularBuffer × Option Int :=
  if !cb.isInitialized then
    (CB_ERROR_NULL_POINTER, cb, none)
  else if cb_isEmpty cb then
    (CB_ERROR_EMPTY, cb, none)
  else
    (CB_SUCCESS, cb, some (readAt cb cb.readIndex))

/-- Function `cb_getCount` of `src/circular_buffer.c`. -/
def cb_getCount (cb : CircularBuffer) : Nat :=
  if !cb.isInitialized then 0
  else cb.count

/-- Function `cb_getFreeSpace` of `src/circular_buffer.c`. -/
def cb_getFreeSpace (cb : CircularBuffer) : Nat :=
  if !cb.isInitialized then 0
  else cb.capacity - cb.count

/-- Function `cb_clear` of `src/circular_buffer.c`: resets the cursors and
the count; the storage contents, `capacity` and `indexMask` are untouched. -/
def cb_clear (cb : CircularBuffer) : Int × CircularBuffer :=
  if !cb.isInitialized then
    (CB_ERROR_NULL_POINTER, cb)
  else
    (CB_SUCCESS, { cb with writeIndex := 0, readIndex := 0, count := 0 })

/-- System state seen by the thread-safe wrappers: the buffer plus the
interrupt-enable flag toggled by `ENTER_CRITICAL`/`EXIT_CRITICAL`
(`__disable_irq`/`__enable_irq` on the ARM branch; the non-ARM branch is
a no-op, which is a degenerate case of this model). -/
structure SysState where
  irqEnabled : Bool
  buf : CircularBuffer
deriving Repr, DecidableEq

/-- Macro `ENTER_CRITICAL` of `src/circular_buffer.c` (ARM branch:
disable interrupts). -/
def ENTER_CRITICAL (s : SysState) : SysState :=
  { s with irqEnabled := false }

/-- Macro `EXIT_CRITICAL` of `src/circular_buffer.c` (ARM branch:
enable interrupts). -/
def EXIT_CRITICAL (s : SysState) : SysState :=
  { s with irqEnabled := true }

/-- Function `cb_push_safe` of `src/circular_buffer.c`:
`ENTER_CRITICAL(); result = cb_push(cb, data); EXIT_CRITICAL();`. -/
def cb_push_safe (policy : FullPolicy) (s : SysState) (data : Int) :
    Int × SysState :=
  let s1 := ENTER_CRITICAL s
  let result := cb_push policy s1.buf data
  let s2 := EXIT_CRITICAL { s1 with buf := result.2 }
  (result.1, s2)

/-- Function `cb_pop_safe` of `src/circular_buffer.c`:
`ENTER_CRITICAL(); result = cb_pop(cb, pData); EXIT_CRITICAL();`. -/
def cb_pop_safe (s : SysState) : Int × SysState × Option Int :=
  let s1 := ENTER_CRITICAL s
  let result := cb_pop s1.buf
  let s2 := EXIT_CRITICAL { s1 with buf := result.2.1 }
  (result.1, s2, result.2.2)

/-- One public mutating entry point, for stating reachability properties. -/
inductive BufOp where
  | push (v : Int)
  | pop
  | peek
  | clear
deriving Repr

/-- Effect of one entry point on the buffer state. -/
def applyOp (policy : FullPolicy) (cb : CircularBuffer) : BufOp → CircularBuffer
  | BufOp.push v => (cb_push policy cb v).2
  | BufOp.pop => (cb_pop cb).2.1
  | BufOp.peek => (cb_peek cb).2.1
  | BufOp.clear => (cb_clear cb).2

/-- Run a sequence of entry points. -/
def runOps (policy : FullPolicy) (cb : CircularBuffer) (ops : List BufOp) :
    CircularBuffer :=
  ops.foldl (applyOp policy) cb

/-- Push a list of values in order, discarding the result codes. -/
def pushAll (policy : FullPolicy) (cb : CircularBuffer) (vs : List Int) :
    CircularBuffer :=
  vs.foldl (fun b v => (cb_push policy b v).2) cb

/-- Check that pushing a list of values in order never finds the buffer
full (hence never overwrites) and that every push reports success. -/
def pushSeqOk (policy : FullPolicy) : CircularBuffer → List Int → Bool
  | _, [] => true
  | cb, v :: vs =>
    (!cb_isFull cb) && ((cb_push policy cb v).1 == CB_SUCCESS) &&
      pushSeqOk policy (cb_push policy cb v).2 vs

/-- Pop `n` times, collecting what each call wrote through `pData`. -/
def popN : CircularBuffer → Nat → CircularBuffer × List (Option Int)
  | cb, 0 => (cb, [])
  | cb, Nat.succ n =>
    let r := cb_pop cb
    let rest := popN r.2.1 n
    (rest.1, r.2.2 :: rest.2)

/-- Logical FIFO content of the buffer: the `count` values starting at
`readIndex`, in pop order. -/
def contents (cb : CircularBuffer) : List Int :=
  (List.range cb.count).map (fun i => readAt cb ((cb.readIndex + i) % cb.capacity))

/-- Well-formedness of an initialized buffer state: every conjunct is
decidable, and together they are preserved by all operations (proved
below).  `writeIndex = (readIndex + count) % capacity` is the cursor
discipline of the ring. -/
def GoodState (cb : CircularBuffer) : Prop :=
  cb.isInitialized = true ∧
  isPowerOfTwo cb.capacity = true ∧
  cb.capacity < UINT32_LIMIT ∧
  cb.indexMask = cb.capacity - 1 ∧
  cb.pBuffer.isSome = true ∧
  (storage cb).length = cb.capacity ∧
  cb.writeIndex < cb.capacity ∧
  cb.readIndex < cb.capacity ∧
  cb.count ≤ cb.capacity ∧
  cb.writeIndex = (cb.readIndex + cb.count) % cb.capacity

instance (cb : CircularBuffer) : Decidable (GoodState cb) := by
  unfold GoodState
  exact inferInstance

/-- Concrete buffer of capacity 2 filled with the values 7 and 8, used
only as a witness input. -/
def fullTwoCB : CircularBuffer :=
  pushAll FullPolicy.OverwriteOldest (cb_init blankCB 2).2 [7, 8]

/-- Buffer state after `init(4)` and pushing 10 and 20; its `writeIndex`
is 2.  Used as a concrete counterexample input. -/
def twoPushedCB : CircularBuffer :=
  runOps FullPolicy.OverwriteOldest (cb_init blankCB 4).2 [BufOp.push 10, BufOp.push 20]

/-- The cursor discipline of the amended C6: an operation leaves a cursor
unchanged, advances it to `(cursor + 1) & mask`, or — only for `clear` —
resets it to 0. -/
def cursorStepOk (cb cb' : CircularBuffer) (op : BufOp) : Prop :=
  (cb'.writeIndex = cb.writeIndex ∨
    cb'.writeIndex = ((cb.writeIndex + 1) &&& cb.indexMask) ∨
    (op = BufOp.clear ∧ cb'.writeIndex = 0)) ∧
  (cb'.readIndex = cb.readIndex ∨
    cb'.readIndex = ((cb.readIndex + 1) &&& cb.indexMask) ∨
    (op = BufOp.clear ∧ cb'.readIndex = 0))

example : (cb_init blankCB 8).1 = CB_SUCCESS := by decide
example : (cb_init blankCB 6).1 = CB_ERROR_INVALID_SIZE := by decide
example : GoodState (cb_init blankCB 8).2 := by decide
example :
    (popN (pushAll FullPolicy.OverwriteOldest (cb_init blankCB 8).2 [10, 20, 30]) 3).2 =
      [some 10, some 20, some 30] := by decide
example :
    contents (pushAll FullPolicy.OverwriteOldest (cb_init blankCB 2).2 [7, 8, 9]) =
      [8, 9] := by decide

/-! ### Foundational lemmas -/

/-- The bit test `n != 0 && (n & (n-1)) == 0` recognizes exactly the
powers of two. -/
theorem isPowerOfTwo_eq_true_iff (n : Nat) :
    isPowerOfTwo n = true ↔ ∃ k, n = 2 ^ k := by
  constructor
  · intro h
    have h' : n ≠ 0 ∧ n &&& (n - 1) = 0 := by
      simpa [isPowerOfTwo, Bool.and_eq_true] using h
    obtain ⟨hn, hl⟩ := h'
    refine ⟨n.log2, ?_⟩
    have h1 : 2 ^ n.log2 ≤ n := Nat.log2_self_le hn
    have h2 : n < 2 ^ (n.log2 + 1) := Nat.lt_log2_self
    by_contra hne
    have hgt : 2 ^ n.log2 < n := lt_of_le_of_ne h1 (fun e => hne e.symm)
    have hb1 : n.testBit n.log2 = true := by
      rw [Nat.testBit_to_div_mod]
      have hd : n / 2 ^ n.log2 = 1 := by
        apply Nat.div_eq_of_lt_le
        · simpa using h1
        · have : n < 2 ^ n.log2 * 2 := by
            calc n < 2 ^ (n.log2 + 1) := h2
            _ = 2 ^ n.log2 * 2 := by rw [Nat.pow_succ]
          simpa [Nat.mul_comm] using this
      simp [hd]
    have hb2 : (n - 1).testBit n.log2 = true := by
      rw [Nat.testBit_to_div_mod]
      have hd : (n - 1) / 2 ^ n.log2 = 1 := by
        apply Nat.div_eq_of_lt_le
        · simpa using Nat.le_sub_one_of_lt hgt
        · have : n - 1 < 2 ^ n.log2 * 2 := by
            calc n - 1 ≤ n := Nat.sub_le n 1
            _ < 2 ^ (n.log2 + 1) := h2
            _ = 2 ^ n.log2 * 2 := by rw [Nat.pow_succ]
          simpa [Nat.mul_comm] using this
      simp [hd]
    have hz := Nat.testBit_and n (n - 1) n.log2
    rw [hl, hb1, hb2] at hz
    simp at hz
  · rintro ⟨k, rfl⟩
    have hz : (2 ^ k) &&& (2 ^ k - 1) = 0 := by
      rw [Nat.and_pow_two_sub_one_eq_mod, Nat.mod_self]
    simp [isPowerOfTwo, hz, pow_ne_zero k (two_ne_zero (α := Nat))]

/-- Under a power-of-two capacity with `indexMask = capacity - 1`, the
bit-mask wrap agrees with the modulo. -/
theorem wrapIndex_eq_mod (cb : CircularBuffer) (x : Nat)
    (hpow : isPowerOfTwo cb.capacity = true)
    (hmask : cb.indexMask = cb.capacity - 1) :
    wrapIndex cb x = x % cb.capacity := by
  obtain ⟨k, hk⟩ := (isPowerOfTwo_eq_true_iff cb.capacity).mp hpow
  rw [wrapIndex, hmask, hk, Nat.and_pow_two_sub_one_eq_mod]

/-- The logical content has exactly `count` elements. -/
theorem contents_length (cb : CircularBuffer) :
    (contents cb).length = cb.count := by
  simp [contents]

/-- The `peek` entry point never changes the buffer state. -/
theorem cb_peek_state (cb : CircularBuffer) : (cb_peek cb).2.1 = cb := by
  unfold cb_peek
  split
  · rfl
  · split <;> rfl

/-- On an initialized, non-full buffer `cb_isFull` answers `false`. -/
theorem cb_isFull_eq_false (cb : CircularBuffer) (hinit : cb.isInitialized = true)
    (hlt : cb.count < cb.capacity) : cb_isFull cb = false := by
  simp [cb_isFull, hinit, Nat.ne_of_lt hlt]

/-- On an initialized, full buffer `cb_isFull` answers `true`. -/
theorem cb_isFull_eq_true (cb : CircularBuffer) (hinit : cb.isInitialized = true)
    (hfc : cb.count = cb.capacity) : cb_isFull cb = true := by
  simp [cb_isFull, hinit, hfc]

/-- On an initialized, non-empty buffer `cb_isEmpty` answers `false`. -/
theorem cb_isEmpty_eq_false (cb : CircularBuffer) (hinit : cb.isInitialized = true)
    (hpos : 0 < cb.count) : cb_isEmpty cb = false := by
  have : cb.count ≠ 0 := by omega
  simp [cb_isEmpty, hinit, this]

/-- Evaluation of `cb_push` on an initialized, non-full buffer: `count`
increments, the value lands at the old `writeIndex`, and `writeIndex`
advances by one modulo the capacity. -/
theorem cb_push_not_full (p : FullPolicy) (cb : CircularBuffer) (v : Int)
    (hg : GoodState cb) (hlt : cb.count < cb.capacity) :
    cb_push p cb v =
      (CB_SUCCESS,
        { cb with
          pBuffer := cb.pBuffer.map (fun l => l.set cb.writeIndex v)
          count := cb.count + 1
          writeIndex := (cb.writeIndex + 1) % cb.capacity }) := by
  obtain ⟨hinit, hpow, hcap32, hmask, hsome, hlen, hw, hr, hcnt, hwidx⟩ := hg
  have hfull := cb_isFull_eq_false cb hinit hlt
  have hwrap : ∀ x, x &&& cb.indexMask = x % cb.capacity :=
    fun x => wrapIndex_eq_mod cb x hpow hmask
  have hlim : UINT32_LIMIT = 4294967296 := rfl
  have h1 : (cb.count + 1) % UINT32_LIMIT = cb.count + 1 :=
    Nat.mod_eq_of_lt (by rw [hlim]; rw [hlim] at hcap32; omega)
  have h2 : (cb.writeIndex + 1) % UINT32_LIMIT = cb.writeIndex + 1 :=
    Nat.mod_eq_of_lt (by rw [hlim]; rw [hlim] at hcap32; omega)
  unfold cb_push
  rw [hinit, hfull]
  simp [storeAt, wrapIndex, h1, h2, hwrap]

/-- Evaluation of `cb_push` under `OverwriteOldest` on an initialized full
buffer: `readIndex` advances (the oldest element is discarded), the value
lands at the old `writeIndex`, `writeIndex` advances, `count` is kept. -/
theorem cb_push_full_overwrite (cb : CircularBuffer) (v : Int)
    (hg : GoodState cb) (hfc : cb.count = cb.capacity) :
    cb_push FullPolicy.OverwriteOldest cb v =
      (CB_SUCCESS,
        { cb with
          pBuffer := cb.pBuffer.map (fun l => l.set cb.writeIndex v)
          readIndex := (cb.readIndex + 1) % cb.capacity
          writeIndex := (cb.writeIndex + 1) % cb.capacity }) := by
  obtain ⟨hinit, hpow, hcap32, hmask, hsome, hlen, hw, hr, hcnt, hwidx⟩ := hg
  have hfull := cb_isFull_eq_true cb hinit hfc
  have hwrap : ∀ x, x &&& cb.indexMask = x % cb.capacity :=
    fun x => wrapIndex_eq_mod cb x hpow hmask
  have hlim : UINT32_LIMIT = 4294967296 := rfl
  have h1 : (cb.readIndex + 1) % UINT32_LIMIT = cb.readIndex + 1 :=
    Nat.mod_eq_of_lt (by rw [hlim]; rw [hlim] at hcap32; omega)
  have h2 : (cb.writeIndex + 1) % UINT32_LIMIT = cb.writeIndex + 1 :=
    Nat.mod_eq_of_lt (by rw [hlim]; rw [hlim] at hcap32; omega)
  unfold cb_push
  rw [hinit, hfull]
  simp [storeAt, wrapIndex, h1, h2, hwrap]

/-- Evaluation of `cb_push` under `RejectNew` on an initialized full
buffer: the error is reported and the state is returned untouched. -/
theorem cb_push_reject_full (cb : CircularBuffer) (v : Int)
    (hinit : cb.isInitialized = true) (hfc : cb.count = cb.capacity) :
    cb_push FullPolicy.RejectNew cb v = (CB_ERROR_FULL, cb) := by
  have hfull := cb_isFull_eq_true cb hinit hfc
  unfold cb_push
  rw [hinit, hfull]
  simp

/-- Evaluation of `cb_pop` on an initialized, non-empty buffer. -/
theorem cb_pop_nonempty (cb : CircularBuffer)
    (hg : GoodState cb) (hpos : 0 < cb.count) :
    cb_pop cb =
      (CB_SUCCESS,
        { cb with
          readIndex := (cb.readIndex + 1) % cb.capacity
          count := cb.count - 1 },
        some (readAt cb cb.readIndex)) := by
  obtain ⟨hinit, hpow, hcap32, hmask, hsome, hlen, hw, hr, hcnt, hwidx⟩ := hg
  have hemp := cb_isEmpty_eq_false cb hinit hpos
  have hwrap : ∀ x, x &&& cb.indexMask = x % cb.capacity :=
    fun x => wrapIndex_eq_mod cb x hpow hmask
  have hlim : UINT32_LIMIT = 4294967296 := rfl
  have h1 : (cb.readIndex + 1) % UINT32_LIMIT = cb.readIndex + 1 :=
    Nat.mod_eq_of_lt (by rw [hlim]; rw [hlim] at hcap32; omega)
  unfold cb_pop
  rw [hinit, hemp]
  simp [wrapIndex, h1, hwrap]

/-- Evaluation of `cb_pop` on an initialized empty buffer: error, no
mutation, no write through `pData`. -/
theorem cb_pop_empty (cb : CircularBuffer)
    (hinit : cb.isInitialized = true) (hzero : cb.count = 0) :
    cb_pop cb = (CB_ERROR_EMPTY, cb, none) := by
  have hemp : cb_isEmpty cb = true := by simp [cb_isEmpty, hinit, hzero]
  unfold cb_pop
  rw [hinit, hemp]
  simp

/-- Evaluation of `cb_clear` on an initialized buffer. -/
theorem cb_clear_eq (cb : CircularBuffer) (hinit : cb.isInitialized = true) :
    cb_clear cb =
      (CB_SUCCESS, { cb with writeIndex := 0, readIndex := 0, count := 0 }) := by
  unfold cb_clear
  rw [hinit]
  simp

/-- The backing list of a well-formed state, with its bookkeeping facts. -/
theorem storage_facts (cb : CircularBuffer) (hg : GoodState cb) :
    ∃ l, cb.pBuffer = some l ∧ storage cb = l ∧ l.length = cb.capacity := by
  obtain ⟨hinit, hpow, hcap32, hmask, hsome, hlen, hw, hr, hcnt, hwidx⟩ := hg
  obtain ⟨l, hlb⟩ := Option.isSome_iff_exists.mp hsome
  refine ⟨l, hlb, ?_, ?_⟩
  · simp [storage, hlb]
  · rw [← hlen]; simp [storage, hlb]

/-- A well-formed capacity is positive. -/
theorem capacity_pos (cb : CircularBuffer) (hg : GoodState cb) : 0 < cb.capacity :=
  Nat.lt_of_le_of_lt (Nat.zero_le _) hg.2.2.2.2.2.2.1

/-- After a push on a non-full well-formed buffer the state is again
well-formed, the logical content has the value appended, and `count`
has grown by one. -/
theorem goodState_push_not_full (p : FullPolicy) (cb : CircularBuffer) (v : Int)
    (hg : GoodState cb) (hlt : cb.count < cb.capacity) :
    GoodState (cb_push p cb v).2 ∧
    contents (cb_push p cb v).2 = contents cb ++ [v] ∧
    (cb_push p cb v).2.count = cb.count + 1 ∧
    (cb_push p cb v).2.capacity = cb.capacity := by
  obtain ⟨l, hlb, hstor, hllen⟩ := storage_facts cb hg
  have hcpos := capacity_pos cb hg
  obtain ⟨hinit, hpow, hcap32, hmask, hsome, hlen, hw, hr, hcnt, hwidx⟩ := hg
  rw [cb_push_not_full p cb v
    ⟨hinit, hpow, hcap32, hmask, hsome, hlen, hw, hr, hcnt, hwidx⟩ hlt]
  have hreadw : readAt
      { cb with
        pBuffer := cb.pBuffer.map (fun l => l.set cb.writeIndex v)
        count := cb.count + 1
        writeIndex := (cb.writeIndex + 1) % cb.capacity } cb.writeIndex = v := by
    simp [readAt, storage, hlb]
    rw [List.getElem?_set_self (by rw [hllen]; omega)]
    rfl
  have hreadr : ∀ j, j ≠ cb.writeIndex → readAt
      { cb with
        pBuffer := cb.pBuffer.map (fun l => l.set cb.writeIndex v)
        count := cb.count + 1
        writeIndex := (cb.writeIndex + 1) % cb.capacity } j = readAt cb j := by
    intro j hj
    simp [readAt, storage, hlb]
    rw [List.getElem?_set_ne (Ne.symm hj)]
  refine ⟨?_, ?_, ?_, ?_⟩
  · refine ⟨hinit, hpow, hcap32, hmask, ?_, ?_, ?_, hr, ?_, ?_⟩
    · simp [hlb]
    · simp [storage, hlb, hllen]
    · exact Nat.mod_lt _ hcpos
    · show cb.count + 1 ≤ cb.capacity
      omega
    · show (cb.writeIndex + 1) % cb.capacity = (cb.readIndex + (cb.count + 1)) % cb.capacity
      rw [hwidx, Nat.mod_add_mod, Nat.add_assoc]
  · show contents _ = contents cb ++ [v]
    unfold contents
    simp only [List.range_succ, List.map_append, List.map_cons, List.map_nil]
    congr 1
    · apply List.map_congr_left
      intro i hi
      have hi' : i < cb.count := List.mem_range.mp hi
      apply hreadr
      rw [hwidx]
      intro heq
      have hmeq : i % cb.capacity = cb.count % cb.capacity :=
        Nat.ModEq.add_left_cancel' cb.readIndex heq
      rw [Nat.mod_eq_of_lt (by omega), Nat.mod_eq_of_lt hlt] at hmeq
      omega
    · rw [← hwidx, hreadw]
  · rfl
  · rfl

/-- After a pop on a non-empty well-formed buffer the state is again
well-formed, the logical content loses its head, and the popped value is
that head. -/
theorem goodState_pop (cb : CircularBuffer) (hg : GoodState cb) (hpos : 0 < cb.count) :
    GoodState (cb_pop cb).2.1 ∧
    contents (cb_pop cb).2.1 = (contents cb).tail ∧
    (cb_pop cb).2.2 = (contents cb).head? ∧
    (cb_pop cb).2.1.count = cb.count - 1 ∧
    (cb_pop cb).2.1.capacity = cb.capacity := by
  have hcpos := capacity_pos cb hg
  obtain ⟨hinit, hpow, hcap32, hmask, hsome, hlen, hw, hr, hcnt, hwidx⟩ := hg
  rw [cb_pop_nonempty cb
    ⟨hinit, hpow, hcap32, hmask, hsome, hlen, hw, hr, hcnt, hwidx⟩ hpos]
  obtain ⟨m, hm⟩ : ∃ m, cb.count = m + 1 := ⟨cb.count - 1, by omega⟩
  have hcontents : contents cb = readAt cb cb.readIndex ::
      (List.range m).map (fun i => readAt cb ((cb.readIndex + (i + 1)) % cb.capacity)) := by
    unfold contents
    rw [hm, List.range_succ_eq_map]
    simp [List.map_map, Function.comp, Nat.mod_eq_of_lt hr]
  refine ⟨?_, ?_, ?_, ?_, ?_⟩
  · refine ⟨hinit, hpow, hcap32, hmask, hsome, hlen, hw, ?_, ?_, ?_⟩
    · exact Nat.mod_lt _ hcpos
    · show cb.count - 1 ≤ cb.capacity
      omega
    · show cb.writeIndex = ((cb.readIndex + 1) % cb.capacity + (cb.count - 1)) % cb.capacity
      rw [Nat.mod_add_mod]
      have harith : cb.readIndex + 1 + (cb.count - 1) = cb.readIndex + cb.count := by omega
      rw [harith, ← hwidx]
  · show contents _ = (contents cb).tail
    rw [hcontents]
    unfold contents
    show (List.range (cb.count - 1)).map _ = _
    rw [hm]
    simp only [Nat.add_sub_cancel, List.tail_cons]
    apply List.map_congr_left
    intro i hi
    show readAt cb (((cb.readIndex + 1) % cb.capacity + i) % cb.capacity) = _
    rw [Nat.mod_add_mod]
    have harith : cb.readIndex + 1 + i = cb.readIndex + (i + 1) := by omega
    rw [harith]
  · rw [hcontents]
    rfl
  · rfl
  · rfl

/-- After an overwriting push on a full well-formed buffer the state is
again well-formed and `count` is unchanged. -/
theorem goodState_push_full (cb : CircularBuffer) (v : Int)
    (hg : GoodState cb) (hfc : cb.count = cb.capacity) :
    GoodState (cb_push FullPolicy.OverwriteOldest cb v).2 ∧
    (cb_push FullPolicy.OverwriteOldest cb v).2.count = cb.count ∧
    (cb_push FullPolicy.OverwriteOldest cb v).2.capacity = cb.capacity := by
  obtain ⟨l, hlb, hstor, hllen⟩ := storage_facts cb hg
  have hcpos := capacity_pos cb hg
  obtain ⟨hinit, hpow, hcap32, hmask, hsome, hlen, hw, hr, hcnt, hwidx⟩ := hg
  rw [cb_push_full_overwrite cb v
    ⟨hinit, hpow, hcap32, hmask, hsome, hlen, hw, hr, hcnt, hwidx⟩ hfc]
  have hwr : cb.writeIndex = cb.readIndex := by
    rw [hwidx, hfc, Nat.add_mod_right, Nat.mod_eq_of_lt hr]
  refine ⟨⟨hinit, hpow, hcap32, hmask, ?_, ?_, ?_, ?_, hcnt, ?_⟩, rfl, rfl⟩
  · simp [hlb]
  · simp [storage, hlb, hllen]
  · exact Nat.mod_lt _ hcpos
  · exact Nat.mod_lt _ hcpos
  · show (cb.writeIndex + 1) % cb.capacity =
      ((cb.readIndex + 1) % cb.capacity + cb.count) % cb.capacity
    rw [hwr, Nat.mod_add_mod, hfc, Nat.add_mod_right]

/-- After a clear on a well-formed buffer the state is again well-formed,
logically empty, and the storage list is untouched. -/
theorem goodState_clear (cb : CircularBuffer) (hg : GoodState cb) :
    GoodState (cb_clear cb).2 ∧
    (cb_clear cb).2.count = 0 ∧
    (cb_clear cb).2.capacity = cb.capacity ∧
    storage (cb_clear cb).2 = storage cb := by
  have hcpos := capacity_pos cb hg
  obtain ⟨hinit, hpow, hcap32, hmask, hsome, hlen, hw, hr, hcnt, hwidx⟩ := hg
  rw [cb_clear_eq cb hinit]
  refine ⟨⟨hinit, hpow, hcap32, hmask, hsome, hlen, hcpos, hcpos, ?_, ?_⟩, rfl, rfl, rfl⟩
  · exact Nat.zero_le _
  · show (0 : Nat) = (0 + 0) % cb.capacity
    simp

/-- A successful `cb_init` with a machine-representable size produces a
well-formed, empty buffer. -/
theorem goodState_init (cb : CircularBuffer) (size : Nat)
    (hs : (cb_init cb size).1 = CB_SUCCESS) (h32 : size < UINT32_LIMIT) :
    GoodState (cb_init cb size).2 ∧
    (cb_init cb size).2.count = 0 ∧
    (cb_init cb size).2.capacity = size ∧
    (cb_init cb size).2.writeIndex = 0 ∧
    (cb_init cb size).2.readIndex = 0 := by
  by_cases hguard : (size == 0 || !isPowerOfTwo size) = true
  · rw [show cb_init cb size = (CB_ERROR_INVALID_SIZE, cb) from by
      unfold cb_init; rw [if_pos hguard]] at hs
    simp [CB_ERROR_INVALID_SIZE, CB_SUCCESS] at hs
  · have h1 : (size == 0 || !isPowerOfTwo size) = false :=
      Bool.eq_false_iff.mpr hguard
    rw [Bool.or_eq_false_iff] at h1
    have hsz : size ≠ 0 := by
      intro h
      rw [h] at h1
      simp at h1
    have hpow : isPowerOfTwo size = true := by
      have := h1.2
      simp at this
      exact this
    have hszpos : 0 < size := Nat.pos_of_ne_zero hsz
    rw [show cb_init cb size =
        (CB_SUCCESS,
          { cb with
            capacity := size
            indexMask := size - 1
            writeIndex := 0
            readIndex := 0
            count := 0
            pBuffer := some (List.replicate size 0)
            isInitialized := true }) from by
      unfold cb_init; rw [if_neg hguard]]
    refine ⟨⟨rfl, hpow, h32, rfl, rfl, ?_, hszpos, hszpos, Nat.zero_le _, ?_⟩,
      rfl, rfl, rfl, rfl⟩
    · simp [storage]
    · show (0 : Nat) = (0 + 0) % size
      simp

/-- Every public mutating entry point preserves well-formedness. -/
theorem goodState_applyOp (p : FullPolicy) (cb : CircularBuffer) (op : BufOp)
    (hg : GoodState cb) : GoodState (applyOp p cb op) := by
  have hinit : cb.isInitialized = true := hg.1
  have hcnt : cb.count ≤ cb.capacity := hg.2.2.2.2.2.2.2.2.1
  cases op with
  | push v =>
    show GoodState (cb_push p cb v).2
    by_cases hlt : cb.count < cb.capacity
    · exact (goodState_push_not_full p cb v hg hlt).1
    · have hfc : cb.count = cb.capacity := by omega
      cases p with
      | OverwriteOldest => exact (goodState_push_full cb v hg hfc).1
      | RejectNew =>
        rw [show (cb_push FullPolicy.RejectNew cb v).2 = cb from by
          rw [cb_push_reject_full cb v hinit hfc]]
        exact hg
  | pop =>
    show GoodState (cb_pop cb).2.1
    by_cases hpos : 0 < cb.count
    · exact (goodState_pop cb hg hpos).1
    · have hz : cb.count = 0 := by omega
      rw [show (cb_pop cb).2.1 = cb from by rw [cb_pop_empty cb hinit hz]]
      exact hg
  | peek =>
    show GoodState (cb_peek cb).2.1
    rw [cb_peek_state]
    exact hg
  | clear =>
    exact (goodState_clear cb hg).1

/-- Well-formedness is preserved by arbitrary operation sequences. -/
theorem goodState_runOps (p : FullPolicy) (ops : List BufOp) (cb : CircularBuffer)
    (hg : GoodState cb) : GoodState (runOps p cb ops) := by
  induction ops generalizing cb with
  | nil => exact hg
  | cons op ops ih => exact ih _ (goodState_applyOp p cb op hg)

/-- Pushing a list that fits in the remaining space succeeds step by step
with no overwrite, and appends the list to the logical content. -/
theorem pushAll_spec (p : FullPolicy) (vs : List Int) :
    ∀ cb : CircularBuffer, GoodState cb → cb.count + vs.length ≤ cb.capacity →
    pushSeqOk p cb vs = true ∧
    GoodState (pushAll p cb vs) ∧
    contents (pushAll p cb vs) = contents cb ++ vs ∧
    (pushAll p cb vs).count = cb.count + vs.length ∧
    (pushAll p cb vs).capacity = cb.capacity := by
  induction vs with
  | nil =>
    intro cb hg _
    exact ⟨rfl, hg, by simp [pushAll], by simp [pushAll], rfl⟩
  | cons v vs ih =>
    intro cb hg hle
    have hlt : cb.count < cb.capacity := by
      simp only [List.length_cons] at hle
      omega
    obtain ⟨hg', hcont, hcount, hcap⟩ := goodState_push_not_full p cb v hg hlt
    have hres : (cb_push p cb v).1 = CB_SUCCESS := by
      rw [cb_push_not_full p cb v hg hlt]
    have hfull := cb_isFull_eq_false cb hg.1 hlt
    have hstep := ih (cb_push p cb v).2 hg' (by
      rw [hcount, hcap]
      simp only [List.length_cons] at hle
      omega)
    refine ⟨?_, ?_, ?_, ?_, ?_⟩
    · show ((!cb_isFull cb) && ((cb_push p cb v).1 == CB_SUCCESS) &&
        pushSeqOk p (cb_push p cb v).2 vs) = true
      rw [hfull, hres, hstep.1]
      rfl
    · exact hstep.2.1
    · show contents (pushAll p (cb_push p cb v).2 vs) = contents cb ++ (v :: vs)
      rw [hstep.2.2.1, hcont]
      simp
    · show (pushAll p (cb_push p cb v).2 vs).count = cb.count + (v :: vs).length
      rw [hstep.2.2.2.1, hcount]
      simp only [List.length_cons]
      omega
    · show (pushAll p (cb_push p cb v).2 vs).capacity = cb.capacity
      rw [hstep.2.2.2.2, hcap]

/-- Popping `n` times from a well-formed buffer holding at least `n`
values returns the first `n` logical values, in order. -/
theorem popN_spec (n : Nat) :
    ∀ cb : CircularBuffer, GoodState cb → n ≤ cb.count →
    (popN cb n).2 = ((contents cb).take n).map some ∧
    GoodState (popN cb n).1 := by
  induction n with
  | zero =>
    intro cb hg _
    exact ⟨by simp [popN], hg⟩
  | succ n ih =>
    intro cb hg hle
    have hpos : 0 < cb.count := by omega
    obtain ⟨hg', htail, hhead, hcount, hcap⟩ := goodState_pop cb hg hpos
    have hstep := ih (cb_pop cb).2.1 hg' (by rw [hcount]; omega)
    have hne : contents cb ≠ [] := by
      intro h
      have hl := contents_length cb
      rw [h] at hl
      simp at hl
      omega
    obtain ⟨a, t, hct⟩ := List.exists_cons_of_ne_nil hne
    refine ⟨?_, hstep.2⟩
    show (cb_pop cb).2.2 :: (popN (cb_pop cb).2.1 n).2 = _
    rw [hstep.1, hhead, htail, hct]
    simp

/-! ### Claim theorems -/

/-- C1: on a well-formed buffer that is logically empty (as after a
successful `cb_init`), pushing `N ≤ capacity` values `v1..vN` succeeds at
every step with no overwrite, and the following `N` pops write exactly
`v1..vN` through `pData`, in insertion order (strict FIFO). -/
theorem C1_fifo_order (p : FullPolicy) (cb : CircularBuffer) (vs : List Int)
    (hg : GoodState cb) (hzero : cb.count = 0) (hlen : vs.length ≤ cb.capacity) :
    pushSeqOk p cb vs = true ∧
    (popN (pushAll p cb vs) vs.length).2 = vs.map some := by
  have h := pushAll_spec p vs cb hg (by omega)
  have hc0 : contents cb = [] := by
    unfold contents
    rw [hzero]
    simp
  have hp := popN_spec vs.length (pushAll p cb vs) h.2.1 (by
    rw [h.2.2.2.1]
    omega)
  refine ⟨h.1, ?_⟩
  rw [hp.1, h.2.2.1, hc0]
  simp

/-- Witness for C1 at a concrete freshly initialized buffer of capacity 8
and the pushed values 10, 20, 30. -/
theorem C1_fifo_order_witness :
    pushSeqOk FullPolicy.OverwriteOldest (cb_init blankCB 8).2 [10, 20, 30] = true ∧
    (popN (pushAll FullPolicy.OverwriteOldest (cb_init blankCB 8).2 [10, 20, 30])
      3).2 = [some 10, some 20, some 30] :=
  C1_fifo_order FullPolicy.OverwriteOldest (cb_init blankCB 8).2 [10, 20, 30]
    (by decide) (by decide) (by decide)

/-- C2: pushing onto a full well-formed buffer under `OverwriteOldest`
succeeds; `readIndex` advances to `(readIndex + 1) & mask` (discarding the
oldest element), `count` stays at `capacity`, the value is written at the
old `writeIndex`, `writeIndex` advances to `(writeIndex + 1) & mask`, and
(whenever a second-oldest element exists, i.e. `capacity ≥ 2`) the next
pop returns the element that was second-oldest before the overwrite. -/
theorem C2_overwrite_oldest (cb : CircularBuffer) (v : Int)
    (hg : GoodState cb) (hfc : cb.count = cb.capacity) :
    (cb_push FullPolicy.OverwriteOldest cb v).1 = CB_SUCCESS ∧
    (cb_push FullPolicy.OverwriteOldest cb v).2.readIndex =
      ((cb.readIndex + 1) &&& cb.indexMask) ∧
    (cb_push FullPolicy.OverwriteOldest cb v).2.count = cb.capacity ∧
    readAt (cb_push FullPolicy.OverwriteOldest cb v).2 cb.writeIndex = v ∧
    (cb_push FullPolicy.OverwriteOldest cb v).2.writeIndex =
      ((cb.writeIndex + 1) &&& cb.indexMask) ∧
    (2 ≤ cb.capacity →
      (cb_pop (cb_push FullPolicy.OverwriteOldest cb v).2).1 = CB_SUCCESS ∧
      (cb_pop (cb_push FullPolicy.OverwriteOldest cb v).2).2.2 =
        (contents cb)[1]?) := by
  obtain ⟨l, hlb, hstor, hllen⟩ := storage_facts cb hg
  have hcpos := capacity_pos cb hg
  have hpf := goodState_push_full cb v hg hfc
  have hpush := cb_push_full_overwrite cb v hg hfc
  obtain ⟨hinit, hpow, hcap32, hmask, hsome, hlen, hw, hr, hcnt, hwidx⟩ := hg
  have hwrap : ∀ x, x &&& cb.indexMask = x % cb.capacity :=
    fun x => wrapIndex_eq_mod cb x hpow hmask
  have hwr : cb.writeIndex = cb.readIndex := by
    rw [hwidx, hfc, Nat.add_mod_right, Nat.mod_eq_of_lt hr]
  rw [hpush] at hpf ⊢
  refine ⟨rfl, ?_, hfc, ?_, ?_, ?_⟩
  · rw [hwrap]
  · simp [readAt, storage, hlb]
    rw [List.getElem?_set_self (by rw [hllen]; exact hw)]
    rfl
  · rw [hwrap]
  · intro h2
    have hgr := hpf.1
    have hpop := cb_pop_nonempty _ hgr (by
      show 0 < cb.count
      omega)
    rw [hpop]
    have hneq : (cb.readIndex + 1) % cb.capacity ≠ cb.writeIndex := by
      rw [hwr]
      rcases Nat.lt_or_ge (cb.readIndex + 1) cb.capacity with hlt | hge
      · rw [Nat.mod_eq_of_lt hlt]
        omega
      · have hce : cb.readIndex + 1 = cb.capacity := by omega
        rw [hce, Nat.mod_self]
        omega
    have hread : readAt
        { cb with
          pBuffer := cb.pBuffer.map (fun l => l.set cb.writeIndex v)
          readIndex := (cb.readIndex + 1) % cb.capacity
          writeIndex := (cb.writeIndex + 1) % cb.capacity }
        ((cb.readIndex + 1) % cb.capacity) =
        readAt cb ((cb.readIndex + 1) % cb.capacity) := by
      simp [readAt, storage, hlb]
      rw [List.getElem?_set_ne (Ne.symm hneq)]
    have hcont : (contents cb)[1]? =
        some (readAt cb ((cb.readIndex + 1) % cb.capacity)) := by
      unfold contents
      rw [List.getElem?_map, List.getElem?_range (by omega : 1 < cb.count)]
      rfl
    exact ⟨rfl, by rw [hcont]; show some _ = some _; rw [hread]⟩

/-- Witness for C2 at a concrete full buffer of capacity 2 holding 7, 8:
pushing 9 overwrites the 7 and the next pop returns the 8. -/
theorem C2_overwrite_oldest_witness :
    (cb_push FullPolicy.OverwriteOldest fullTwoCB 9).1 = CB_SUCCESS ∧
    (cb_pop (cb_push FullPolicy.OverwriteOldest fullTwoCB 9).2).2.2 =
      (contents fullTwoCB)[1]? :=
  ⟨(C2_overwrite_oldest fullTwoCB 9 (by decide) (by decide)).1,
   ((C2_overwrite_oldest fullTwoCB 9 (by decide) (by decide)).2.2.2.2.2
     (by decide)).2⟩

/-- C3: pushing onto a full initialized buffer under `RejectNew` returns
`CB_ERROR_FULL` (the `BufferFull` error) and the returned state is the
input state unchanged — no cursor moves, `count` stays, no slot changes. -/
theorem C3_reject_new_unchanged (cb : CircularBuffer) (v : Int)
    (hinit : cb.isInitialized = true) (hfc : cb.count = cb.capacity) :
    cb_push FullPolicy.RejectNew cb v = (CB_ERROR_FULL, cb) :=
  cb_push_reject_full cb v hinit hfc

/-- Witness for C3 at a concrete full buffer of capacity 2. -/
theorem C3_reject_new_unchanged_witness :
    cb_push FullPolicy.RejectNew fullTwoCB 9 = (CB_ERROR_FULL, fullTwoCB) :=
  C3_reject_new_unchanged fullTwoCB 9 (by decide) (by decide)

/-- C4: popping from an initialized buffer with `count = 0` returns
`CB_ERROR_EMPTY` (the `BufferEmpty` error), the returned state is the
input state unchanged, and nothing is written through `pData`. -/
theorem C4_pop_empty_unchanged (cb : CircularBuffer)
    (hinit : cb.isInitialized = true) (hzero : cb.count = 0) :
    cb_pop cb = (CB_ERROR_EMPTY, cb, none) :=
  cb_pop_empty cb hinit hzero

/-- Witness for C4 at a freshly initialized buffer of capacity 4. -/
theorem C4_pop_empty_unchanged_witness :
    cb_pop (cb_init blankCB 4).2 = (CB_ERROR_EMPTY, (cb_init blankCB 4).2, none) :=
  C4_pop_empty_unchanged (cb_init blankCB 4).2 (by decide) (by decide)

/-- C5: `cb_init` succeeds exactly when the requested size is a non-zero
power of two — equivalently when `size != 0 && (size & (size-1)) == 0`,
which is what `isPowerOfTwo` decides; on success it sets
`mask = capacity - 1` and `writeIndex = readIndex = count = 0`, and on a
zero or non-power-of-two size it fails with `CB_ERROR_INVALID_SIZE`
leaving the struct untouched (in particular no storage is obtained). -/
theorem C5_init_validation (cb : CircularBuffer) (size : Nat) :
    ((cb_init cb size).1 = CB_SUCCESS ↔ ∃ k, size = 2 ^ k) ∧
    ((cb_init cb size).1 = CB_SUCCESS ↔ (size ≠ 0 ∧ (size &&& (size - 1)) = 0)) ∧
    (isPowerOfTwo size = true →
      (cb_init cb size).1 = CB_SUCCESS ∧
      (cb_init cb size).2.capacity = size ∧
      (cb_init cb size).2.indexMask = size - 1 ∧
      (cb_init cb size).2.writeIndex = 0 ∧
      (cb_init cb size).2.readIndex = 0 ∧
      (cb_init cb size).2.count = 0 ∧
      (cb_init cb size).2.isInitialized = true) ∧
    (isPowerOfTwo size = false →
      (cb_init cb size).1 = CB_ERROR_INVALID_SIZE ∧ (cb_init cb size).2 = cb) := by
  by_cases hp : isPowerOfTwo size = true
  · have hsz : size ≠ 0 := by
      intro h
      rw [h] at hp
      exact absurd hp (by decide)
    have hguard : ¬((size == 0 || !isPowerOfTwo size) = true) := by
      simp [hp, hsz]
    have heq : cb_init cb size =
        (CB_SUCCESS,
          { cb with
            capacity := size
            indexMask := size - 1
            writeIndex := 0
            readIndex := 0
            count := 0
            pBuffer := some (List.replicate size 0)
            isInitialized := true }) := by
      unfold cb_init
      rw [if_neg hguard]
    have hbits : size ≠ 0 ∧ (size &&& (size - 1)) = 0 := by
      simpa [isPowerOfTwo, Bool.and_eq_true] using hp
    refine ⟨⟨fun _ => (isPowerOfTwo_eq_true_iff size).mp hp, fun _ => by rw [heq]⟩,
      ⟨fun _ => hbits, fun _ => by rw [heq]⟩,
      fun _ => by rw [heq]; exact ⟨rfl, rfl, rfl, rfl, rfl, rfl, rfl⟩,
      fun hcontra => absurd hp (by simp [hcontra])⟩
  · have hpf : isPowerOfTwo size = false := Bool.eq_false_iff.mpr hp
    have hguard : (size == 0 || !isPowerOfTwo size) = true := by
      simp [hpf]
    have heq : cb_init cb size = (CB_ERROR_INVALID_SIZE, cb) := by
      unfold cb_init
      rw [if_pos hguard]
    refine ⟨⟨?_, ?_⟩, ⟨?_, ?_⟩, ?_, fun _ => by rw [heq]; exact ⟨rfl, rfl⟩⟩
    · intro h
      rw [heq] at h
      exact absurd h (by simp [CB_ERROR_INVALID_SIZE, CB_SUCCESS])
    · intro h
      exact absurd ((isPowerOfTwo_eq_true_iff size).mpr h) (by simp [hpf])
    · intro h
      rw [heq] at h
      exact absurd h (by simp [CB_ERROR_INVALID_SIZE, CB_SUCCESS])
    · intro h
      have : isPowerOfTwo size = true := by
        simp [isPowerOfTwo, Bool.and_eq_true, h.1, h.2]
      exact absurd this (by simp [hpf])
    · intro h
      exact absurd h (by simp [hpf])

/-- Witness for C5: capacity 8 (a power of two) is accepted with mask 7;
capacity 6 is rejected with `CB_ERROR_INVALID_SIZE`. -/
theorem C5_init_validation_witness :
    ((cb_init blankCB 8).1 = CB_SUCCESS ∧ (cb_init blankCB 8).2.indexMask = 7) ∧
    (cb_init blankCB 6).1 = CB_ERROR_INVALID_SIZE :=
  ⟨⟨((C5_init_validation blankCB 8).2.2.1 (by decide)).1,
    ((C5_init_validation blankCB 8).2.2.1 (by decide)).2.2.1⟩,
   ((C5_init_validation blankCB 6).2.2.2 (by decide)).1⟩

/-- C8: `cb_clear` on an initialized buffer succeeds, zeroes both cursors
and the count, and leaves every storage slot, the capacity and the mask
exactly as they were. -/
theorem C8_clear_frame (cb : CircularBuffer) (hinit : cb.isInitialized = true) :
    (cb_clear cb).1 = CB_SUCCESS ∧
    (cb_clear cb).2.writeIndex = 0 ∧
    (cb_clear cb).2.readIndex = 0 ∧
    (cb_clear cb).2.count = 0 ∧
    storage (cb_clear cb).2 = storage cb ∧
    (cb_clear cb).2.pBuffer = cb.pBuffer ∧
    (cb_clear cb).2.capacity = cb.capacity ∧
    (cb_clear cb).2.indexMask = cb.indexMask ∧
    (cb_clear cb).2.isInitialized = true := by
  rw [cb_clear_eq cb hinit]
  exact ⟨rfl, rfl, rfl, rfl, rfl, rfl, rfl, rfl, hinit⟩

/-- Witness for C8 at a concrete buffer holding two values: the cursors
reset while the storage keeps the stale values 7 and 8. -/
theorem C8_clear_frame_witness :
    (cb_clear fullTwoCB).1 = CB_SUCCESS ∧
    (cb_clear fullTwoCB).2.count = 0 ∧
    storage (cb_clear fullTwoCB).2 = storage fullTwoCB :=
  ⟨(C8_clear_frame fullTwoCB (by decide)).1,
   (C8_clear_frame fullTwoCB (by decide)).2.2.2.1,
   (C8_clear_frame fullTwoCB (by decide)).2.2.2.2.1⟩

/-- C9: `cb_deinit` is idempotent: after a first call the storage pointer
is NULL and the struct is the zeroed `Closed` state; a second call again
reports success, performs no `free` (the guard sees the NULL pointer), and
leaves the state bit-for-bit identical to the state after the first call. -/
theorem C9_deinit_idempotent (cb : CircularBuffer) :
    (cb_deinit (cb_deinit cb).2.1).1 = CB_SUCCESS ∧
    (cb_deinit (cb_deinit cb).2.1).2.2 = false ∧
    (cb_deinit (cb_deinit cb).2.1).2.1 = (cb_deinit cb).2.1 ∧
    (cb_deinit cb).2.1.pBuffer = none ∧
    (cb_deinit cb).2.1.isInitialized = false ∧
    (cb_deinit cb).2.1.capacity = 0 ∧
    (cb_deinit cb).2.1.writeIndex = 0 ∧
    (cb_deinit cb).2.1.readIndex = 0 ∧
    (cb_deinit cb).2.1.count = 0 :=
  ⟨rfl, rfl, rfl, rfl, rfl, rfl, rfl, rfl, rfl⟩

/-- C10: in the sequential semantics, the guarded entry points
`cb_push_safe`/`cb_pop_safe` return exactly the result code of the
unguarded `cb_push`/`cb_pop` and leave the buffer in exactly the same
final state (and write the same value through `pData`); the critical
section only toggles the interrupt flag around the call. -/
theorem C10_safe_wrappers_equivalent (p : FullPolicy) (s : SysState) (v : Int) :
    (cb_push_safe p s v).1 = (cb_push p s.buf v).1 ∧
    (cb_push_safe p s v).2.buf = (cb_push p s.buf v).2 ∧
    (cb_pop_safe s).1 = (cb_pop s.buf).1 ∧
    (cb_pop_safe s).2.1.buf = (cb_pop s.buf).2.1 ∧
    (cb_pop_safe s).2.2 = (cb_pop s.buf).2.2 :=
  ⟨rfl, rfl, rfl, rfl, rfl⟩

/-- C6 counterexample: `cb_clear` — one of the operations the claim
quantifies over — changes `writeIndex` from 2 to 0, which is neither
leaving it unchanged nor the claimed form `(writeIndex + 1) & mask = 3`.
So not every index change is of the form `(index + 1) & mask`. -/
theorem C6_counterexample :
    twoPushedCB.writeIndex = 2 ∧
    (applyOp FullPolicy.OverwriteOldest twoPushedCB BufOp.clear).writeIndex = 0 ∧
    ((twoPushedCB.writeIndex + 1) &&& twoPushedCB.indexMask) = 3 ∧
    (applyOp FullPolicy.OverwriteOldest twoPushedCB BufOp.clear).writeIndex ≠
      twoPushedCB.writeIndex ∧
    (applyOp FullPolicy.OverwriteOldest twoPushedCB BufOp.clear).writeIndex ≠
      ((twoPushedCB.writeIndex + 1) &&& twoPushedCB.indexMask) := by
  decide

/-- On a well-formed state every entry point obeys the cursor discipline. -/
theorem cursorStep_applyOp (p : FullPolicy) (cb : CircularBuffer) (op : BufOp)
    (hg : GoodState cb) : cursorStepOk cb (applyOp p cb op) op := by
  have hinit : cb.isInitialized = true := hg.1
  have hpow : isPowerOfTwo cb.capacity = true := hg.2.1
  have hmask : cb.indexMask = cb.capacity - 1 := hg.2.2.2.1
  have hcnt : cb.count ≤ cb.capacity := hg.2.2.2.2.2.2.2.2.1
  cases op with
  | push v =>
    show cursorStepOk cb (cb_push p cb v).2 _
    by_cases hlt : cb.count < cb.capacity
    · rw [cb_push_not_full p cb v hg hlt]
      exact ⟨Or.inr (Or.inl
        (wrapIndex_eq_mod cb (cb.writeIndex + 1) hpow hmask).symm), Or.inl rfl⟩
    · have hfc : cb.count = cb.capacity := by omega
      cases p with
      | OverwriteOldest =>
        rw [cb_push_full_overwrite cb v hg hfc]
        exact ⟨Or.inr (Or.inl
            (wrapIndex_eq_mod cb (cb.writeIndex + 1) hpow hmask).symm),
          Or.inr (Or.inl
            (wrapIndex_eq_mod cb (cb.readIndex + 1) hpow hmask).symm)⟩
      | RejectNew =>
        rw [cb_push_reject_full cb v hinit hfc]
        exact ⟨Or.inl rfl, Or.inl rfl⟩
  | pop =>
    show cursorStepOk cb (cb_pop cb).2.1 _
    by_cases hpos : 0 < cb.count
    · rw [cb_pop_nonempty cb hg hpos]
      exact ⟨Or.inl rfl, Or.inr (Or.inl
        (wrapIndex_eq_mod cb (cb.readIndex + 1) hpow hmask).symm)⟩
    · rw [cb_pop_empty cb hinit (by omega)]
      exact ⟨Or.inl rfl, Or.inl rfl⟩
  | peek =>
    show cursorStepOk cb (cb_peek cb).2.1 _
    rw [cb_peek_state]
    exact ⟨Or.inl rfl, Or.inl rfl⟩
  | clear =>
    show cursorStepOk cb (cb_clear cb).2 _
    rw [cb_clear_eq cb hinit]
    exact ⟨Or.inr (Or.inr ⟨rfl, rfl⟩), Or.inr (Or.inr ⟨rfl, rfl⟩)⟩

/-- C6 (amended): after any finite sequence of push/pop/peek/clear from a
successful `cb_init`, both cursors lie in `[0, capacity)`; and each single
operation changes a cursor only by `(index + 1) & mask` (push, pop, peek)
or by resetting it to 0 (clear), never in any other way. -/
theorem C6_cursor_invariant (p : FullPolicy) (size : Nat) (ops : List BufOp)
    (hs : (cb_init blankCB size).1 = CB_SUCCESS) (h32 : size < UINT32_LIMIT) :
    (runOps p (cb_init blankCB size).2 ops).writeIndex <
      (runOps p (cb_init blankCB size).2 ops).capacity ∧
    (runOps p (cb_init blankCB size).2 ops).readIndex <
      (runOps p (cb_init blankCB size).2 ops).capacity ∧
    ∀ op : BufOp, cursorStepOk (runOps p (cb_init blankCB size).2 ops)
      (applyOp p (runOps p (cb_init blankCB size).2 ops) op) op := by
  have hg0 := (goodState_init blankCB size hs h32).1
  have hg := goodState_runOps p ops _ hg0
  exact ⟨hg.2.2.2.2.2.2.1, hg.2.2.2.2.2.2.2.1,
    fun op => cursorStep_applyOp p _ op hg⟩

/-- Witness for the amended C6 at capacity 8 and a concrete two-operation
sequence. -/
theorem C6_cursor_invariant_witness :
    (runOps FullPolicy.OverwriteOldest (cb_init blankCB 8).2
        [BufOp.push 1, BufOp.pop]).writeIndex <
      (runOps FullPolicy.OverwriteOldest (cb_init blankCB 8).2
        [BufOp.push 1, BufOp.pop]).capacity :=
  (C6_cursor_invariant FullPolicy.OverwriteOldest 8 [BufOp.push 1, BufOp.pop]
    (by decide) (by decide)).1

/-- C7 counterexample: the queries on an uninitialized buffer do not fail
with the not-initialized error — they return the very same ordinary values
(`true`, `0`, ...) as on a successfully initialized empty buffer — and
`cb_deinit` (also an operation other than init) even reports success. -/
theorem C7_counterexample :
    cb_isEmpty blankCB = true ∧
    cb_isEmpty (cb_init blankCB 4).2 = true ∧
    cb_getCount blankCB = 0 ∧
    cb_getCount (cb_init blankCB 4).2 = 0 ∧
    cb_isFull blankCB = false ∧
    cb_getFreeSpace blankCB = 0 ∧
    (cb_deinit blankCB).1 = CB_SUCCESS := by
  decide

/-- C7 (amended): on a buffer whose `isInitialized` flag is down
(`Uninitialized` or `Closed`), the error-returning operations push, pop,
peek and clear fail with `CB_ERROR_NULL_POINTER` — the single code the
implementation uses for the not-initialized condition — and mutate
nothing; the queries `isEmpty`/`isFull`/`count`/`freeSpace` signal no
error and return the defaults `true`/`false`/`0`/`0`; `deinit` succeeds
as a no-op. -/
theorem C7_uninitialized_behavior (p : FullPolicy) (cb : CircularBuffer) (v : Int)
    (huninit : cb.isInitialized = false) :
    cb_push p cb v = (CB_ERROR_NULL_POINTER, cb) ∧
    cb_pop cb = (CB_ERROR_NULL_POINTER, cb, none) ∧
    cb_peek cb = (CB_ERROR_NULL_POINTER, cb, none) ∧
    cb_clear cb = (CB_ERROR_NULL_POINTER, cb) ∧
    cb_isEmpty cb = true ∧
    cb_isFull cb = false ∧
    cb_getCount cb = 0 ∧
    cb_getFreeSpace cb = 0 ∧
    (cb_deinit cb).1 = CB_SUCCESS := by
  unfold cb_push cb_pop cb_peek cb_clear cb_isEmpty cb_isFull cb_getCount
    cb_getFreeSpace cb_deinit
  rw [huninit]
  simp

/-- Witness for the amended C7 at the concrete uninitialized buffer. -/
theorem C7_uninitialized_behavior_witness :
    cb_push FullPolicy.OverwriteOldest blankCB 5 = (CB_ERROR_NULL_POINTER, blankCB) ∧
    cb_getCount blankCB = 0 :=
  ⟨(C7_uninitialized_behavior FullPolicy.OverwriteOldest blankCB 5 rfl).1,
   (C7_uninitialized_behavior FullPolicy.OverwriteOldest blankCB 5 rfl).2.2.2.2.2.2.1⟩
